import Mathlib

/-!
Verification of the task-scheduling core of `auto_rx/auto_rx.py`
(radiosonde_auto_rx): device pool allocation, scanner/decoder task
registry, temporary frequency block list, scan-result arbitration,
task reaping, and the telemetry validation filter.

The embedding models Python data faithfully:
* Python numbers are rationals carrying their runtime type tag
  (`int` vs `float`), because the source inspects `type(key) == int`.
* Python dicts are insertion-ordered association lists; key lookup
  uses numeric value equality (Python `5 == 5.0`), while the stored
  key object keeps the tag of the first insertion.
* Python 3 dict iteration raises `RuntimeError` when the dict changes
  size between `next()` calls; `clean_task_list` mutates the dicts it
  iterates, so the reap pass is modelled as returning the state built
  up so far together with an optional propagated exception.
-/

namespace AutoRx

/-! ## Telemetry records and the telemetry filter -/

/-- A decoded telemetry record, as consumed by `telemetry_filter`. -/
structure Telemetry where
  id : String
  lat : Rat
  lon : Rat
  alt : Rat
  sats : Option Int
  ty : String
  freq : Rat
  deriving DecidableEq

/-- The configuration fields read by `telemetry_filter`. -/
structure FilterConfig where
  max_altitude : Rat
  max_radius_km : Rat
  station_lat : Rat
  station_lon : Rat
  station_alt : Rat
  deriving DecidableEq

/-- Modelled from the spec: `position_info` lives in `autorx/utils.py`,
which is not part of the analysed sources. The spec says the fourth
filter stage computes the "straight-line distance from station to
payload", so the distance computation is kept abstract: a function
from the (lat, lon, alt) triples of station and payload to the
straight-line distance in metres. -/
def DistanceFn : Type := Rat × Rat × Rat → Rat × Rat × Rat → Rat

/-- The reason attached to each distinct `return False` site of
`telemetry_filter` (each site logs a distinct warning). -/
inductive RejectReason
  | zeroPos
  | altCap
  | lowSats
  | radiusCap
  | badSerial
  deriving DecidableEq

/-- Result of the telemetry filter: `True` in Python corresponds to
`accept`, each `False` site to a `reject` with its reason. -/
inductive FilterResult
  | accept
  | reject (r : RejectReason)
  deriving DecidableEq

/-- ASCII digit test, the `\d` of the serial-number regexes. -/
def is_digit (c : Char) : Bool := decide ('0' ≤ c) && decide (c ≤ '9')

/-- `re.match(r'[E-Z][0-5][\d][1-7]\d{4}', serial)`: anchored prefix
match of the Vaisala RS92/RS41 serial pattern. -/
def vaisala_callsign_valid (s : String) : Bool :=
  match s.data with
  | c0 :: c1 :: c2 :: c3 :: c4 :: c5 :: c6 :: c7 :: _ =>
    decide ('E' ≤ c0) && decide (c0 ≤ 'Z') &&
    decide ('0' ≤ c1) && decide (c1 ≤ '5') &&
    is_digit c2 &&
    decide ('1' ≤ c3) && decide (c3 ≤ '7') &&
    is_digit c4 && is_digit c5 && is_digit c6 && is_digit c7
  | _ => false

/-- `re.match(r'DFM[01][5679]-\d{6}', serial)`: anchored prefix match
of the DFM serial pattern. -/
def dfm_callsign_valid (s : String) : Bool :=
  match s.data with
  | 'D' :: 'F' :: 'M' :: a :: b :: '-' :: d1 :: d2 :: d3 :: d4 :: d5 :: d6 :: _ =>
    (decide (a = '0') || decide (a = '1')) &&
    (decide (b = '5') || decide (b = '6') || decide (b = '7') || decide (b = '9')) &&
    is_digit d1 && is_digit d2 && is_digit d3 && is_digit d4 && is_digit d5 && is_digit d6
  | _ => false

/-- `needle` occurs contiguously at the start of `hay`. -/
def chars_start : List Char → List Char → Bool
  | [], _ => true
  | _ :: _, [] => false
  | a :: as, b :: bs => decide (a = b) && chars_start as bs

/-- `needle` occurs contiguously somewhere in `hay`
(Python's `needle in hay` on strings). -/
def chars_occur (needle : List Char) : List Char → Bool
  | [] => needle.isEmpty
  | c :: rest => chars_start needle (c :: rest) || chars_occur needle rest

/-- Python `needle in hay` for strings. -/
def str_contains (hay needle : String) : Bool :=
  chars_occur needle.data hay.data

/-- The final serial-number gate of `telemetry_filter`: valid Vaisala
or DFM serial, or an M10/iMet type that bypasses validation. -/
def serial_check_pass (t : Telemetry) : Bool :=
  vaisala_callsign_valid t.id || dfm_callsign_valid t.id ||
  str_contains t.ty "M10" || str_contains t.ty "iMet"

/-- Stage 5 of `telemetry_filter` (payload serial number checks). -/
def serial_stage (t : Telemetry) : FilterResult :=
  if serial_check_pass t then .accept else .reject .badSerial

/-- Stage 4 of `telemetry_filter`: the station-radius check, run only
when both station coordinates are nonzero. -/
def radius_stage (dist : DistanceFn) (cfg : FilterConfig) (t : Telemetry) : FilterResult :=
  if cfg.station_lat ≠ 0 ∧ cfg.station_lon ≠ 0 then
    if cfg.max_radius_km * 1000 <
        dist (cfg.station_lat, cfg.station_lon, cfg.station_alt) (t.lat, t.lon, t.alt) then
      .reject .radiusCap
    else serial_stage t
  else serial_stage t

/-- Stage 3 of `telemetry_filter`: satellite-count check, only when a
`sats` field is present. -/
def sats_stage (dist : DistanceFn) (cfg : FilterConfig) (t : Telemetry) : FilterResult :=
  match t.sats with
  | some s => if s < 4 then .reject .lowSats else radius_stage dist cfg t
  | none => radius_stage dist cfg t

/-- `telemetry_filter` from `auto_rx.py`: the four-stage validation
pipeline plus serial-number gate, short-circuiting at the first
failing check. `dist` abstracts `position_info(...)['straight_distance']`. -/
def telemetry_filter (dist : DistanceFn) (cfg : FilterConfig) (t : Telemetry) : FilterResult :=
  if t.lat = 0 ∧ t.lon = 0 then .reject .zeroPos
  else if cfg.max_altitude < t.alt then .reject .altCap
  else sats_stage dist cfg t

/-! ## Python values and dictionaries

The scheduler keys its task registry by `'SCAN'` or by a numeric
frequency, and `start_decoder` inspects the runtime type of stored
keys (`type(_key) == int`). A Python number is therefore modelled as
a rational value together with its runtime type tag; dictionary key
comparison uses the numeric value only (`5 == 5.0` in Python), while
the key object stored in the dict keeps the tag it was first
inserted with. -/

/-- The runtime type of a Python number (`int` vs `float`). -/
inductive NumTag
  | int
  | float
  deriving DecidableEq

/-- A Python number: rational value plus runtime type tag. -/
structure PyNum where
  tag : NumTag
  val : Rat
  deriving DecidableEq

/-- Python `==` on numbers compares values, ignoring int/float. -/
def numEq (a b : PyNum) : Bool := decide (a.val = b.val)

/-- A key of the task registry: the `'SCAN'` sentinel or a frequency. -/
inductive TaskKey
  | scan
  | freq (n : PyNum)
  deriving DecidableEq

/-- Python `==` on task-registry keys. -/
def keyEq : TaskKey → TaskKey → Bool
  | .scan, .scan => true
  | .freq a, .freq b => numEq a b
  | _, _ => false

/-- Python `==` on `Nat` device indices. -/
def natEq (a b : Nat) : Bool := decide (a = b)

/-- Dictionary lookup (`d[k]` / `k in d`): first entry whose stored
key compares equal to `k`. -/
def alookup {κ α : Type} (eq : κ → κ → Bool) : List (κ × α) → κ → Option α
  | [], _ => none
  | (k', v) :: rest, k => if eq k' k then some v else alookup eq rest k

/-- Dictionary store (`d[k] = v`): replaces the value at an existing
equal key (keeping the originally stored key object), else appends. -/
def ainsert {κ α : Type} (eq : κ → κ → Bool) : List (κ × α) → κ → α → List (κ × α)
  | [], k, v => [(k, v)]
  | (k', v') :: rest, k, v =>
    if eq k' k then (k', v) :: rest else (k', v') :: ainsert eq rest k v

/-- Dictionary removal (`d.pop(k)`, key known present; no-op when the
key is absent). -/
def aerase {κ α : Type} (eq : κ → κ → Bool) : List (κ × α) → κ → List (κ × α)
  | [], _ => []
  | (k', v') :: rest, k => if eq k' k then rest else (k', v') :: aerase eq rest k

/-- In-place value update (`d[k]['field'] = ...`). -/
def aupdate {κ α : Type} (eq : κ → κ → Bool) (f : α → α) : List (κ × α) → κ → List (κ × α)
  | [], _ => []
  | (k', v') :: rest, k =>
    if eq k' k then (k', f v') :: rest else (k', v') :: aupdate eq f rest k

/-! ## Scheduler state -/

/-- The observable state of a worker thread (scanner or decoder).
`sonde_type` is the constructor argument read back by the spacing
guard; `running` and `exit_state` are the fields polled by
`clean_task_list`; `query_fails` models the state query raising. -/
structure WorkerTask where
  sonde_type : String
  running : Bool
  exit_state : String
  query_fails : Bool
  deriving DecidableEq

/-- One entry of `autorx.task_list`:
`{'device_idx': ..., 'task': ...}`. -/
structure TaskEntry where
  device_idx : Nat
  worker : WorkerTask
  deriving DecidableEq

/-- One entry of `autorx.sdr_list`: the `in_use` flag and the
back-reference to the bound task (stored here as the task's key). -/
structure SDRState where
  in_use : Bool
  task : Option TaskKey
  deriving DecidableEq

/-- The mutable global state of the scheduler: the SDR pool, the task
registry, the temporary frequency block list, and the scan result
queue (a FIFO of detection batches). -/
structure AState where
  sdr_list : List (Nat × SDRState)
  task_list : List (TaskKey × TaskEntry)
  block_list : List (PyNum × Rat)
  scan_results : List (List (PyNum × String))
  deriving DecidableEq

/-- The configuration fields read by the scheduler operations.
`valid_sonde_types` and `drifty_sonde_types` model `VALID_SONDE_TYPES`
and `DRIFTY_SONDE_TYPES`, imported from `autorx.decode` which is not
part of the analysed sources; the spec describes them only as the
"supported set" and the "drifty type set", so they are kept as
abstract string lists. -/
structure Config where
  decoder_spacing_limit : Rat
  temporary_block_time : Rat
  valid_sonde_types : List String
  drifty_sonde_types : List String
  deriving DecidableEq

/-- String membership in a configuration list (Python `in`). -/
def mem_str (x : String) : List String → Bool
  | [] => false
  | y :: rest => if y = x then true else mem_str x rest

/-- Task-registry lookup. -/
def lookupT (d : List (TaskKey × TaskEntry)) (k : TaskKey) : Option TaskEntry :=
  alookup keyEq d k

/-- Task-registry store. -/
def insertT (d : List (TaskKey × TaskEntry)) (k : TaskKey) (v : TaskEntry) :
    List (TaskKey × TaskEntry) :=
  ainsert keyEq d k v

/-- Task-registry removal. -/
def eraseT (d : List (TaskKey × TaskEntry)) (k : TaskKey) : List (TaskKey × TaskEntry) :=
  aerase keyEq d k

/-- Block-list lookup. -/
def lookupB (d : List (PyNum × Rat)) (k : PyNum) : Option Rat :=
  alookup numEq d k

/-- Block-list store. -/
def insertB (d : List (PyNum × Rat)) (k : PyNum) (v : Rat) : List (PyNum × Rat) :=
  ainsert numEq d k v

/-- Block-list removal. -/
def eraseB (d : List (PyNum × Rat)) (k : PyNum) : List (PyNum × Rat) :=
  aerase numEq d k

/-- SDR-pool lookup by device index. -/
def sdr_lookup (d : List (Nat × SDRState)) (i : Nat) : Option SDRState :=
  alookup natEq d i

/-- SDR-pool in-place update by device index. -/
def sdr_update (f : SDRState → SDRState) (d : List (Nat × SDRState)) (i : Nat) :
    List (Nat × SDRState) :=
  aupdate natEq f d i

/-- The block-list TTL in seconds: `config['temporary_block_time']*60`. -/
def block_ttl (cfg : Config) : Rat := cfg.temporary_block_time * 60

/-! ## Scheduler operations -/

/-- `allocate_sdr`: walk the pool in order and return the first free
device; unless `check_only`, mark it in-use. Returns the chosen index
(or `none`) together with the updated pool. -/
def allocate_sdr (check_only : Bool) : List (Nat × SDRState) → Option Nat × List (Nat × SDRState)
  | [] => (none, [])
  | (i, s) :: rest =>
    if s.in_use = false then
      if check_only then (some i, (i, s) :: rest)
      else (some i, (i, { s with in_use := true }) :: rest)
    else
      let r := allocate_sdr check_only rest
      (r.1, (i, s) :: r.2)

/-- The worker object constructed by `SondeScanner(...)`: freshly
started, no terminal exit state yet. -/
def newScannerWorker : WorkerTask :=
  { sonde_type := "", running := true, exit_state := "None", query_fails := false }

/-- The worker object constructed by `SondeDecoder(...)` for the given
sonde type. -/
def newDecoderWorker (ty : String) : WorkerTask :=
  { sonde_type := ty, running := true, exit_state := "None", query_fails := false }

/-- `start_scanner`: no-op when a scanner is registered or no SDR is
free; otherwise allocate an SDR, register the `'SCAN'` entry and set
the device's task back-reference. -/
def start_scanner (st : AState) : AState :=
  match lookupT st.task_list .scan with
  | some _ => st
  | none =>
    let a := allocate_sdr false st.sdr_list
    match a.1 with
    | none => st
    | some idx =>
      { st with
        sdr_list := sdr_update (fun s => { s with task := some .scan }) a.2 idx,
        task_list := insertT st.task_list .scan { device_idx := idx, worker := newScannerWorker } }

/-- `stop_scanner`: no-op when no scanner is registered; otherwise
signal it to stop, release its SDR and deregister it. -/
def stop_scanner (st : AState) : AState :=
  match lookupT st.task_list .scan with
  | none => st
  | some e =>
    { st with
      sdr_list := sdr_update (fun s => { s with in_use := false, task := none })
        st.sdr_list e.device_idx,
      task_list := eraseT st.task_list .scan }

/-- The spacing guard loop of `start_decoder`: some registered task
has an `int`-typed key (the code's test for "is a decoder"), a drifty
sonde type equal to the requested one, and lies within the spacing
limit of the requested frequency. -/
def spacing_conflict (cfg : Config) (tl : List (TaskKey × TaskEntry)) (freq : Rat)
    (ty : String) : Bool :=
  tl.any fun p =>
    match p.1 with
    | .scan => false
    | .freq n =>
      decide (n.tag = .int) &&
      mem_str p.2.worker.sonde_type cfg.drifty_sonde_types &&
      decide (p.2.worker.sonde_type = ty) &&
      decide (|n.val - freq| < cfg.decoder_spacing_limit)

/-- The part of `start_decoder` after the block-list gate: spacing
guard, SDR allocation, registration of the new decoder entry. -/
def start_decoder_core (cfg : Config) (st : AState) (freq : PyNum) (ty : String) : AState :=
  if spacing_conflict cfg st.task_list freq.val ty then st
  else
    let a := allocate_sdr false st.sdr_list
    match a.1 with
    | none => st
    | some idx =>
      { st with
        sdr_list :=
          sdr_update (fun s => { s with task := some (.freq freq) })
            (sdr_update (fun s => { s with in_use := true }) a.2 idx) idx,
        task_list := insertT st.task_list (.freq freq)
          { device_idx := idx, worker := newDecoderWorker ty } }

/-- `start_decoder`: reject while the frequency is blocked and the
block is fresh; drop an expired block entry first; then run the
spacing guard, allocate an SDR and register the decoder. -/
def start_decoder (cfg : Config) (st : AState) (now : Rat) (freq : PyNum) (ty : String) :
    AState :=
  match lookupB st.block_list freq with
  | some t =>
    if t > now - block_ttl cfg then st
    else start_decoder_core cfg { st with block_list := eraseB st.block_list freq } freq ty
  | none => start_decoder_core cfg st freq ty

/-- Python `type.startswith('-')` + `type[1:]`: strip the inverted
polarity marker for the supported-type check. -/
def strip_inv (ty : String) : String :=
  match ty.data with
  | '-' :: rest => ⟨rest⟩
  | _ => ty

/-- Processing of one `(freq, type)` detection inside
`handle_scan_results`: skip already-decoded frequencies and
unsupported types; start a decoder directly when an SDR is free, else
steal the scanner's SDR, else drop the detection. -/
def handle_sonde (cfg : Config) (now : Rat) (st : AState) (sonde : PyNum × String) : AState :=
  match lookupT st.task_list (.freq sonde.1) with
  | some _ => st
  | none =>
    if mem_str (strip_inv sonde.2) cfg.valid_sonde_types = false then st
    else if (allocate_sdr true st.sdr_list).1.isSome then
      start_decoder cfg st now sonde.1 sonde.2
    else if (lookupT st.task_list .scan).isSome then
      start_decoder cfg (stop_scanner st) now sonde.1 sonde.2
    else st

/-- `handle_scan_results`: pop at most one detection batch from the
scan-result queue and process each detection in order. -/
def handle_scan_results (cfg : Config) (st : AState) (now : Rat) : AState :=
  match st.scan_results with
  | [] => st
  | batch :: rest => batch.foldl (handle_sonde cfg now) { st with scan_results := rest }

/-- An uncaught Python exception propagating out of `clean_task_list`. -/
inductive PyErr
  | nameError
  | typeError
  | runtimeError
  deriving DecidableEq

/-- The tail of a reap step once a stopped task's exit state has been
handled: release the SDR, pop the registry entry — after which the
dict iterator's next `next()` raises `RuntimeError` (the dict changed
size during iteration). -/
def finish_reap (st : AState) (k : TaskKey) (e : TaskEntry) : AState × Option PyErr :=
  ({ st with
      sdr_list := sdr_update (fun s => { s with in_use := false, task := none })
        st.sdr_list e.device_idx,
      task_list := eraseT st.task_list k },
   some .runtimeError)

/-- The task loop of `clean_task_list` over the registry keys. A task
whose state query raises is logged and skipped; a running task is
skipped. A stopped task with `exit_state == "Encrypted"` first gets a
block-list entry (for the `'SCAN'` key the log line `_key/1e6` would
raise `TypeError`); with a scanner registered, the next line reads the
undefined name `auto_rx` and raises `NameError` before the SDR is
released. Otherwise the SDR is released and the entry popped, upon
which the iterator raises `RuntimeError`. -/
def reap_tasks (cfg : Config) (now : Rat) : List TaskKey → AState → AState × Option PyErr
  | [], st => (st, none)
  | k :: ks, st =>
    match lookupT st.task_list k with
    | none => reap_tasks cfg now ks st
    | some e =>
      if e.worker.query_fails then reap_tasks cfg now ks st
      else if e.worker.running then reap_tasks cfg now ks st
      else if e.worker.exit_state = "Encrypted" then
        match k with
        | .scan => (st, some .typeError)
        | .freq n =>
          let st1 := { st with block_list := insertB st.block_list n now }
          if (lookupT st1.task_list .scan).isSome then (st1, some .nameError)
          else finish_reap st1 k e
      else finish_reap st k e

/-- The block-list expiry loop of `clean_task_list`: popping the first
expired entry makes the dict iterator raise `RuntimeError`. -/
def expire_blocks (cfg : Config) (now : Rat) : List PyNum → AState → AState × Option PyErr
  | [], st => (st, none)
  | f :: fs, st =>
    match lookupB st.block_list f with
    | none => expire_blocks cfg now fs st
    | some t =>
      if t < now - block_ttl cfg then
        ({ st with block_list := eraseB st.block_list f }, some .runtimeError)
      else expire_blocks cfg now fs st

/-- `clean_task_list`: reap stopped tasks, expire old block entries,
and restart the scanner when none is registered and an SDR is free.
Returns the state as mutated so far together with any uncaught
exception that aborted the pass. -/
def clean_task_list (cfg : Config) (st : AState) (now : Rat) : AState × Option PyErr :=
  let r1 := reap_tasks cfg now (st.task_list.map Prod.fst) st
  match r1.2 with
  | some e => (r1.1, some e)
  | none =>
    let r2 := expire_blocks cfg now (r1.1.block_list.map Prod.fst) r1.1
    match r2.2 with
    | some e => (r2.1, some e)
    | none =>
      if (lookupT r2.1.task_list .scan).isNone &&
          (allocate_sdr true r2.1.sdr_list).1.isSome then
        (start_scanner r2.1, none)
      else (r2.1, none)

/-! ## Reachability -/

/-- An environment step: the worker threads may change their own
observable state (running flag, exit state, whether the state query
raises) and the scanner may push new detection batches; the registry
structure, device bindings and SDR pool are untouched. -/
def env_apply (w : TaskKey → TaskEntry → WorkerTask)
    (q : List (List (PyNum × String))) (st : AState) : AState :=
  { st with
    task_list := st.task_list.map (fun p => (p.1, { p.2 with worker := w p.1 p.2 })),
    scan_results := q }

/-- One step of the system: a scheduler operation from the control
loop, or an environment step by the worker threads. -/
inductive Step (cfg : Config) : AState → AState → Prop
  | start_scanner (st : AState) : Step cfg st (start_scanner st)
  | stop_scanner (st : AState) : Step cfg st (stop_scanner st)
  | start_decoder (st : AState) (now : Rat) (freq : PyNum) (ty : String) :
      Step cfg st (start_decoder cfg st now freq ty)
  | handle_scan_results (st : AState) (now : Rat) :
      Step cfg st (handle_scan_results cfg st now)
  | clean_task_list (st : AState) (now : Rat) :
      Step cfg st (clean_task_list cfg st now).1
  | env (st : AState) (w : TaskKey → TaskEntry → WorkerTask)
      (q : List (List (PyNum × String))) : Step cfg st (env_apply w q st)

/-- The startup state for a pool of `n` SDRs: all devices free, empty
registry, empty block list, empty queue. -/
def init (n : Nat) : AState :=
  { sdr_list := (List.range n).map (fun i => (i, { in_use := false, task := none })),
    task_list := [], block_list := [], scan_results := [] }

/-- States reachable from startup by scheduler and environment steps. -/
def Reachable (cfg : Config) (n : Nat) (st : AState) : Prop :=
  Relation.ReflTransGen (Step cfg) (init n) st

end AutoRx

unseal Rat.sub Rat.mul Rat.add

namespace AutoRx

/-! ## Dictionary lemmas -/

theorem alookup_none_spec {κ α : Type} (eq : κ → κ → Bool) (d : List (κ × α)) (k : κ)
    (h : alookup eq d k = none) :
    (∀ p ∈ d, eq p.1 k = false) ∧ (∀ v, ainsert eq d k v = d ++ [(k, v)]) ∧
    aerase eq d k = d := by
  induction d with
  | nil => simp [ainsert, aerase]
  | cons p rest ih =>
    obtain ⟨k', v'⟩ := p
    by_cases hk : eq k' k = true
    · simp [alookup, hk] at h
    · rw [Bool.not_eq_true] at hk
      simp only [alookup, hk, Bool.false_eq_true, if_false] at h
      obtain ⟨h1, h2, h3⟩ := ih h
      refine ⟨?_, ?_, ?_⟩
      · intro p hp
        rcases List.mem_cons.mp hp with hp | hp
        · subst hp; exact hk
        · exact h1 p hp
      · intro v
        simp [ainsert, hk, h2 v]
      · simp [aerase, hk, h3]

theorem alookup_found_spec {κ α : Type} (eq : κ → κ → Bool) (d : List (κ × α)) (k : κ) (w : α)
    (h : alookup eq d k = some w) :
    ∃ l₁ k' l₂, d = l₁ ++ (k', w) :: l₂ ∧ eq k' k = true ∧
      (∀ p ∈ l₁, eq p.1 k = false) ∧
      (∀ v, ainsert eq d k v = l₁ ++ (k', v) :: l₂) ∧
      aerase eq d k = l₁ ++ l₂ := by
  induction d with
  | nil => simp [alookup] at h
  | cons p rest ih =>
    obtain ⟨k₀, v₀⟩ := p
    by_cases hk : eq k₀ k = true
    · rw [alookup, if_pos hk] at h
      obtain rfl : v₀ = w := Option.some.inj h
      exact ⟨[], k₀, rest, by simp, hk, by simp,
        fun v => by simp [ainsert, hk], by simp [aerase, hk]⟩
    · rw [Bool.not_eq_true] at hk
      simp only [alookup, hk, Bool.false_eq_true, if_false] at h
      obtain ⟨l₁, k', l₂, hd, heq, hl₁, hins, hers⟩ := ih h
      refine ⟨(k₀, v₀) :: l₁, k', l₂, by simp [hd], heq, ?_, ?_, ?_⟩
      · intro p hp
        rcases List.mem_cons.mp hp with hp | hp
        · subst hp; exact hk
        · exact hl₁ p hp
      · intro v
        simp [ainsert, hk, hins v]
      · simp [aerase, hk, hers]

theorem alookup_mem {κ α : Type} (eq : κ → κ → Bool) (d : List (κ × α)) (k : κ) (w : α)
    (h : alookup eq d k = some w) : ∃ k', eq k' k = true ∧ (k', w) ∈ d := by
  obtain ⟨l₁, k', l₂, hd, heq, -, -, -⟩ := alookup_found_spec eq d k w h
  exact ⟨k', heq, by rw [hd]; simp⟩

theorem ainsert_length_le {κ α : Type} (eq : κ → κ → Bool) (d : List (κ × α)) (k : κ) (v : α) :
    d.length ≤ (ainsert eq d k v).length := by
  induction d with
  | nil => simp [ainsert]
  | cons p rest ih =>
    obtain ⟨k', v'⟩ := p
    by_cases hk : eq k' k = true
    · simp [ainsert, hk]
    · rw [Bool.not_eq_true] at hk
      simp only [ainsert, hk, Bool.false_eq_true, if_false, List.length_cons]
      omega

theorem aupdate_keys {κ α : Type} (eq : κ → κ → Bool) (f : α → α) (d : List (κ × α)) (k : κ) :
    (aupdate eq f d k).map Prod.fst = d.map Prod.fst := by
  induction d with
  | nil => simp [aupdate]
  | cons p rest ih =>
    obtain ⟨k', v'⟩ := p
    by_cases hk : eq k' k = true
    · simp [aupdate, hk]
    · rw [Bool.not_eq_true] at hk
      simp [aupdate, hk, ih]

theorem natEq_iff (a b : Nat) : natEq a b = true ↔ a = b := by
  simp [natEq]

theorem sdr_lookup_update_self (f : SDRState → SDRState) (d : List (Nat × SDRState)) (i : Nat) :
    sdr_lookup (sdr_update f d i) i = (sdr_lookup d i).map f := by
  induction d with
  | nil => simp [sdr_lookup, sdr_update, alookup, aupdate]
  | cons p rest ih =>
    by_cases hk : natEq p.1 i = true
    · simp [sdr_lookup, sdr_update, alookup, aupdate, hk]
    · rw [Bool.not_eq_true] at hk
      simpa [sdr_lookup, sdr_update, alookup, aupdate, hk] using ih

theorem sdr_lookup_update_other (f : SDRState → SDRState) (d : List (Nat × SDRState))
    (i j : Nat) (h : j ≠ i) : sdr_lookup (sdr_update f d i) j = sdr_lookup d j := by
  induction d with
  | nil => simp [sdr_lookup, sdr_update, alookup, aupdate]
  | cons p rest ih =>
    obtain ⟨a, s⟩ := p
    by_cases hk : natEq a i = true
    · rw [natEq_iff] at hk
      have hj : natEq a j = false := by
        have hne : ¬a = j := by omega
        simp [natEq, hne]
      have hk' : natEq a i = true := by
        simp [natEq, hk]
      simp [sdr_lookup, sdr_update, alookup, aupdate, hk', hj]
    · rw [Bool.not_eq_true] at hk
      by_cases hj : natEq a j = true
      · simp [sdr_lookup, sdr_update, alookup, aupdate, hk, hj]
      · rw [Bool.not_eq_true] at hj
        simpa [sdr_lookup, sdr_update, alookup, aupdate, hk, hj] using ih

theorem sats_stage_some (dist : DistanceFn) (cfg : FilterConfig) (t : Telemetry) (s : Int)
    (hs : t.sats = some s) :
    sats_stage dist cfg t =
      if s < 4 then .reject .lowSats else radius_stage dist cfg t := by
  simp [sats_stage, hs]

theorem sats_stage_none (dist : DistanceFn) (cfg : FilterConfig) (t : Telemetry)
    (hs : t.sats = none) : sats_stage dist cfg t = radius_stage dist cfg t := by
  simp [sats_stage, hs]

/-! ## Theorems about the telemetry filter (claims C4, C5, C9) -/

/-- C4: a telemetry record whose latitude and longitude are both
exactly zero is rejected by `telemetry_filter` (with the zero-position
reason), regardless of every other field of the record, of the
configuration, and of the distance function. -/
theorem filter_rejects_zero_position (dist : DistanceFn) (cfg : FilterConfig)
    (t : Telemetry) (hlat : t.lat = 0) (hlon : t.lon = 0) :
    telemetry_filter dist cfg t = .reject .zeroPos := by
  simp [telemetry_filter, hlat, hlon]

/-- Witness for C4 at a concrete record and configuration. -/
theorem filter_rejects_zero_position_witness :
    telemetry_filter (fun _ _ => 0)
      { max_altitude := 50000, max_radius_km := 1000,
        station_lat := -34, station_lon := 138, station_alt := 100 }
      { id := "N1234567", lat := 0, lon := 0, alt := 12000, sats := some 9,
        ty := "RS41", freq := 401500000 } = .reject .zeroPos :=
  filter_rejects_zero_position _ _ _ rfl rfl

/-- C5: a record that passes the zero-position check and every stage
after the altitude check is accepted when its altitude equals the
configured cap exactly, while any record whose altitude equals
`cap + 1` is rejected: the altitude gate is strict. -/
theorem filter_altitude_cap_boundary (dist : DistanceFn) (cfg : FilterConfig) (t : Telemetry) :
    (t.alt = cfg.max_altitude → ¬(t.lat = 0 ∧ t.lon = 0) →
      (∀ s, t.sats = some s → ¬s < 4) →
      (cfg.station_lat ≠ 0 ∧ cfg.station_lon ≠ 0 →
        ¬cfg.max_radius_km * 1000 <
          dist (cfg.station_lat, cfg.station_lon, cfg.station_alt) (t.lat, t.lon, t.alt)) →
      serial_check_pass t = true →
      telemetry_filter dist cfg t = .accept) ∧
    (t.alt = cfg.max_altitude + 1 → telemetry_filter dist cfg t ≠ .accept) := by
  constructor
  · intro halt hpos hsats hrad hserial
    rw [telemetry_filter, if_neg hpos, if_neg (by rw [halt]; exact lt_irrefl _)]
    have hrest : radius_stage dist cfg t = .accept := by
      rw [radius_stage]
      by_cases hstation : cfg.station_lat ≠ 0 ∧ cfg.station_lon ≠ 0
      · rw [if_pos hstation, if_neg (hrad hstation), serial_stage, if_pos hserial]
      · rw [if_neg hstation, serial_stage, if_pos hserial]
    cases hs : t.sats with
    | none => rw [sats_stage_none dist cfg t hs]; exact hrest
    | some s =>
      rw [sats_stage_some dist cfg t s hs, if_neg (hsats s hs)]
      exact hrest
  · intro halt
    rw [telemetry_filter]
    by_cases hpos : t.lat = 0 ∧ t.lon = 0
    · rw [if_pos hpos]
      exact fun hc => FilterResult.noConfusion hc
    · rw [if_neg hpos, if_pos (by rw [halt]; exact lt_add_one _)]
      exact fun hc => FilterResult.noConfusion hc

/-- Witness for C5: a record at exactly the altitude cap is accepted,
and the same record one metre above the cap is rejected. -/
theorem filter_altitude_cap_boundary_witness :
    telemetry_filter (fun _ _ => 0)
      { max_altitude := 50000, max_radius_km := 1000,
        station_lat := -34, station_lon := 138, station_alt := 100 }
      { id := "N1234567", lat := -35, lon := 139, alt := 50000, sats := some 9,
        ty := "RS41", freq := 401500000 } = .accept ∧
    telemetry_filter (fun _ _ => 0)
      { max_altitude := 50000, max_radius_km := 1000,
        station_lat := -34, station_lon := 138, station_alt := 100 }
      { id := "N1234567", lat := -35, lon := 139, alt := 50001, sats := some 9,
        ty := "RS41", freq := 401500000 } ≠ .accept := by
  constructor
  · exact (filter_altitude_cap_boundary _ _ _).1 (by decide) (by decide)
      (by intro s hs; cases hs; decide) (by intro h; decide) (by decide)
  · exact (filter_altitude_cap_boundary _ _ _).2 (by decide)

/-- C9: when the configured station latitude or longitude is exactly
zero, `telemetry_filter` skips the radius check entirely: the record
can never be rejected for breaching the radius cap, and the filter
result does not depend on the distance function or on the configured
radius cap. -/
theorem filter_skips_radius_on_zero_station (dist dist' : DistanceFn) (cfg : FilterConfig)
    (t : Telemetry) (r' : Rat) (h : cfg.station_lat = 0 ∨ cfg.station_lon = 0) :
    telemetry_filter dist cfg t ≠ .reject .radiusCap ∧
    telemetry_filter dist cfg t = telemetry_filter dist' { cfg with max_radius_km := r' } t := by
  have hcond : ¬(cfg.station_lat ≠ 0 ∧ cfg.station_lon ≠ 0) := by
    rcases h with h | h <;> simp [h]
  have hr : ∀ dd : DistanceFn, ∀ rr : Rat,
      radius_stage dd { cfg with max_radius_km := rr } t = serial_stage t := by
    intro dd rr
    rw [radius_stage]
    exact if_neg hcond
  have hr₀ : radius_stage dist cfg t = serial_stage t := by
    rw [radius_stage]
    exact if_neg hcond
  have hserial : serial_stage t ≠ .reject .radiusCap := by
    rw [serial_stage]
    by_cases hp : serial_check_pass t = true
    · rw [if_pos hp]
      exact fun hc => FilterResult.noConfusion hc
    · rw [if_neg hp]
      intro hc
      cases hc
  constructor
  · rw [telemetry_filter]
    by_cases hpos : t.lat = 0 ∧ t.lon = 0
    · rw [if_pos hpos]
      intro hc
      cases hc
    · rw [if_neg hpos]
      by_cases halt : cfg.max_altitude < t.alt
      · rw [if_pos halt]
        intro hc
        cases hc
      · rw [if_neg halt]
        cases hs : t.sats with
        | none => rw [sats_stage_none dist cfg t hs, hr₀]; exact hserial
        | some s =>
          rw [sats_stage_some dist cfg t s hs]
          by_cases hlow : s < 4
          · rw [if_pos hlow]
            intro hc
            cases hc
          · rw [if_neg hlow, hr₀]
            exact hserial
  · rw [telemetry_filter, telemetry_filter]
    by_cases hpos : t.lat = 0 ∧ t.lon = 0
    · rw [if_pos hpos, if_pos hpos]
    · rw [if_neg hpos, if_neg hpos]
      by_cases halt : cfg.max_altitude < t.alt
      · rw [if_pos halt]
        rw [show ({ cfg with max_radius_km := r' } : FilterConfig).max_altitude
            = cfg.max_altitude from rfl, if_pos halt]
      · rw [if_neg halt]
        rw [show ({ cfg with max_radius_km := r' } : FilterConfig).max_altitude
            = cfg.max_altitude from rfl, if_neg halt]
        cases hs : t.sats with
        | none =>
          rw [sats_stage_none dist cfg t hs, sats_stage_none dist' _ t hs, hr₀, hr dist' r']
        | some s =>
          rw [sats_stage_some dist cfg t s hs, sats_stage_some dist' _ t s hs]
          by_cases hlow : s < 4
          · rw [if_pos hlow, if_pos hlow]
          · rw [if_neg hlow, if_neg hlow, hr₀, hr dist' r']

/-- Witness for C9: a station on the prime meridian (longitude zero),
a payload 10^9 m away by the distance function, and a 1 km radius cap:
the record is still accepted, and shrinking the cap to zero with a
different distance function changes nothing. -/
theorem filter_skips_radius_on_zero_station_witness :
    telemetry_filter (fun _ _ => 1000000000)
      { max_altitude := 50000, max_radius_km := 1, station_lat := 51, station_lon := 0,
        station_alt := 100 }
      { id := "N1234567", lat := -35, lon := 139, alt := 12000, sats := some 9,
        ty := "RS41", freq := 401500000 } ≠ .reject .radiusCap ∧
    telemetry_filter (fun _ _ => 1000000000)
      { max_altitude := 50000, max_radius_km := 1, station_lat := 51, station_lon := 0,
        station_alt := 100 }
      { id := "N1234567", lat := -35, lon := 139, alt := 12000, sats := some 9,
        ty := "RS41", freq := 401500000 } =
    telemetry_filter (fun _ _ => 0)
      { max_altitude := 50000, max_radius_km := 0, station_lat := 51, station_lon := 0,
        station_alt := 100 }
      { id := "N1234567", lat := -35, lon := 139, alt := 12000, sats := some 9,
        ty := "RS41", freq := 401500000 } :=
  filter_skips_radius_on_zero_station _ _ _ _ _ (Or.inr rfl)

/-! ## Theorems about `start_decoder` (claims C1, C3) -/

theorem start_decoder_core_block (cfg : Config) (st : AState) (freq : PyNum) (ty : String) :
    (start_decoder_core cfg st freq ty).block_list = st.block_list := by
  unfold start_decoder_core
  split
  · rfl
  · simp only []
    split
    · rfl
    · rfl

/-- C1 (evaluation at the failing input): the source's spacing guard
identifies decoder tasks by `type(_key) == int`, but every decoder is
registered under a Python float key (scan detections and the CLI
override both produce floats), so the guard never fires. Here a DFM
decoder runs at float key 401.500 MHz, DFM is in the drifty set, a
second DFM request arrives 10 kHz away — within the 15 kHz spacing
limit — and yet `start_decoder` allocates a second SDR and registers a
second registry entry instead of rejecting the request. -/
theorem spacing_guard_dead_for_float_keys :
    lookupT (start_decoder ⟨15000, 10, ["RS41", "DFM"], ["DFM"]⟩ (init 2) 0
        ⟨.float, 401500000⟩ "DFM").task_list (.freq ⟨.float, 401500000⟩) =
      some ⟨0, newDecoderWorker "DFM"⟩ ∧
    mem_str "DFM" ["DFM"] = true ∧
    |(401500000 : Rat) - 401510000| < 15000 ∧
    (start_decoder ⟨15000, 10, ["RS41", "DFM"], ["DFM"]⟩
        (start_decoder ⟨15000, 10, ["RS41", "DFM"], ["DFM"]⟩ (init 2) 0
          ⟨.float, 401500000⟩ "DFM")
        0 ⟨.float, 401510000⟩ "DFM").task_list.length = 2 ∧
    lookupT (start_decoder ⟨15000, 10, ["RS41", "DFM"], ["DFM"]⟩
        (start_decoder ⟨15000, 10, ["RS41", "DFM"], ["DFM"]⟩ (init 2) 0
          ⟨.float, 401500000⟩ "DFM")
        0 ⟨.float, 401510000⟩ "DFM").task_list (.freq ⟨.float, 401510000⟩) =
      some ⟨1, newDecoderWorker "DFM"⟩ := by
  decide

/-- C3: while a frequency has a fresh block entry (`now - T < TTL`),
`start_decoder` returns the state unchanged; at the first attempt with
`now - T ≥ TTL` it removes the block entry and proceeds with the
remaining start-decoder steps (spacing guard, allocation,
registration) on the state with the entry erased. -/
theorem start_decoder_block_ttl (cfg : Config) (st : AState) (now : Rat) (freq : PyNum)
    (ty : String) (T : Rat) (hb : lookupB st.block_list freq = some T) :
    (now - T < block_ttl cfg → start_decoder cfg st now freq ty = st) ∧
    (block_ttl cfg ≤ now - T →
      start_decoder cfg st now freq ty =
        start_decoder_core cfg { st with block_list := eraseB st.block_list freq } freq ty ∧
      (start_decoder cfg st now freq ty).block_list = eraseB st.block_list freq) := by
  have hred : start_decoder cfg st now freq ty =
      if T > now - block_ttl cfg then st
      else start_decoder_core cfg { st with block_list := eraseB st.block_list freq } freq ty := by
    rw [start_decoder, hb]
  rw [hred]
  constructor
  · intro hfresh
    rw [if_pos (by linarith)]
  · intro hexp
    rw [if_neg (by intro hc; simp only [gt_iff_lt] at hc; linarith)]
    exact ⟨rfl, start_decoder_core_block _ _ _ _⟩

/-- Witness for C3: a frequency blocked at time 0 with a 60 s TTL is
rejected at `now = 30` (state unchanged) and accepted at `now = 60`
(block entry removed, decoder registered on the free SDR). -/
theorem start_decoder_block_ttl_witness :
    start_decoder ⟨15000, 1, ["RS41"], []⟩
        ⟨[(0, ⟨false, none⟩)], [], [(⟨.float, 400000000⟩, 0)], []⟩
        30 ⟨.float, 400000000⟩ "RS41" =
      ⟨[(0, ⟨false, none⟩)], [], [(⟨.float, 400000000⟩, 0)], []⟩ ∧
    (start_decoder ⟨15000, 1, ["RS41"], []⟩
        ⟨[(0, ⟨false, none⟩)], [], [(⟨.float, 400000000⟩, 0)], []⟩
        60 ⟨.float, 400000000⟩ "RS41").block_list = [] ∧
    (start_decoder ⟨15000, 1, ["RS41"], []⟩
        ⟨[(0, ⟨false, none⟩)], [], [(⟨.float, 400000000⟩, 0)], []⟩
        60 ⟨.float, 400000000⟩ "RS41").task_list.length = 1 := by
  refine ⟨(start_decoder_block_ttl _ _ _ _ _ 0 (by decide)).1 (by decide), ?_, by decide⟩
  have h := ((start_decoder_block_ttl ⟨15000, 1, ["RS41"], []⟩
    ⟨[(0, ⟨false, none⟩)], [], [(⟨.float, 400000000⟩, 0)], []⟩
    60 ⟨.float, 400000000⟩ "RS41" 0 (by decide)).2 (by decide)).2
  rw [h]
  decide

/-! ## Theorems about `clean_task_list` (claims C2, C6, C10) -/

/-- C2 (evaluation at the failing input): a decoder at 400.000 MHz has
stopped with `exit_state == "Encrypted"` while a scanner is
registered. The pass inserts the block entry, but the scanner
propagation line reads the undefined global `auto_rx` (the module is
imported as `autorx`), so a `NameError` propagates: the scanner's
exclusion set is never updated, the decoder's SDR is not released, and
the decoder is not deregistered. -/
theorem encrypted_reap_raises_name_error :
    (clean_task_list ⟨15000, 10, ["RS41"], []⟩
      ⟨[(0, ⟨true, some .scan⟩), (1, ⟨true, some (.freq ⟨.float, 400000000⟩)⟩)],
       [(.scan, ⟨0, newScannerWorker⟩),
        (.freq ⟨.float, 400000000⟩, ⟨1, ⟨"RS41", false, "Encrypted", false⟩⟩)],
       [], []⟩ 100).2 = some .nameError ∧
    (clean_task_list ⟨15000, 10, ["RS41"], []⟩
      ⟨[(0, ⟨true, some .scan⟩), (1, ⟨true, some (.freq ⟨.float, 400000000⟩)⟩)],
       [(.scan, ⟨0, newScannerWorker⟩),
        (.freq ⟨.float, 400000000⟩, ⟨1, ⟨"RS41", false, "Encrypted", false⟩⟩)],
       [], []⟩ 100).1 =
      ⟨[(0, ⟨true, some .scan⟩), (1, ⟨true, some (.freq ⟨.float, 400000000⟩)⟩)],
       [(.scan, ⟨0, newScannerWorker⟩),
        (.freq ⟨.float, 400000000⟩, ⟨1, ⟨"RS41", false, "Encrypted", false⟩⟩)],
       [(⟨.float, 400000000⟩, 100)], []⟩ := by
  decide

/-- C6: a registered task whose `running()`/`exit_state` query raises
is logged and skipped by the reap loop: processing it changes nothing —
the loop continues with exactly the remaining keys on the unchanged
state, so the task keeps its registry entry and its device allocation,
and the failing query never aborts the pass. -/
theorem reap_skips_failing_query (cfg : Config) (now : Rat) (k : TaskKey)
    (ks : List TaskKey) (st : AState) (e : TaskEntry)
    (hlk : lookupT st.task_list k = some e) (hq : e.worker.query_fails = true) :
    reap_tasks cfg now (k :: ks) st = reap_tasks cfg now ks st := by
  rw [reap_tasks, hlk]
  simp [hq]

/-- Witness for C6: a single decoder whose state query raises; the
reap step over it equals the reap step over no keys at all, leaving
its entry and its SDR untouched. -/
theorem reap_skips_failing_query_witness :
    lookupT [(.freq ⟨.float, 400000000⟩, ⟨0, ⟨"RS41", true, "None", true⟩⟩)]
        (.freq ⟨.float, 400000000⟩) = some ⟨0, ⟨"RS41", true, "None", true⟩⟩ ∧
    reap_tasks ⟨15000, 10, ["RS41"], []⟩ 100 [.freq ⟨.float, 400000000⟩]
        ⟨[(0, ⟨true, some (.freq ⟨.float, 400000000⟩)⟩)],
         [(.freq ⟨.float, 400000000⟩, ⟨0, ⟨"RS41", true, "None", true⟩⟩)], [], []⟩ =
      reap_tasks ⟨15000, 10, ["RS41"], []⟩ 100 []
        ⟨[(0, ⟨true, some (.freq ⟨.float, 400000000⟩)⟩)],
         [(.freq ⟨.float, 400000000⟩, ⟨0, ⟨"RS41", true, "None", true⟩⟩)], [], []⟩ :=
  ⟨by decide,
   reap_skips_failing_query ⟨15000, 10, ["RS41"], []⟩ 100 (.freq ⟨.float, 400000000⟩) []
     ⟨[(0, ⟨true, some (.freq ⟨.float, 400000000⟩)⟩)],
      [(.freq ⟨.float, 400000000⟩, ⟨0, ⟨"RS41", true, "None", true⟩⟩)], [], []⟩
     ⟨0, ⟨"RS41", true, "None", true⟩⟩ (by decide) (by decide)⟩

/-! Step equations for the reap and expiry loops. -/

theorem reap_cons_miss (cfg : Config) (now : Rat) (k : TaskKey) (ks : List TaskKey)
    (st : AState) (hlk : lookupT st.task_list k = none) :
    reap_tasks cfg now (k :: ks) st = reap_tasks cfg now ks st := by
  rw [reap_tasks, hlk]

theorem reap_cons_qfail (cfg : Config) (now : Rat) (k : TaskKey) (ks : List TaskKey)
    (st : AState) (e : TaskEntry) (hlk : lookupT st.task_list k = some e)
    (hq : e.worker.query_fails = true) :
    reap_tasks cfg now (k :: ks) st = reap_tasks cfg now ks st := by
  rw [reap_tasks, hlk]
  simp [hq]

theorem reap_cons_running (cfg : Config) (now : Rat) (k : TaskKey) (ks : List TaskKey)
    (st : AState) (e : TaskEntry) (hlk : lookupT st.task_list k = some e)
    (hq : e.worker.query_fails = false) (hr : e.worker.running = true) :
    reap_tasks cfg now (k :: ks) st = reap_tasks cfg now ks st := by
  rw [reap_tasks, hlk]
  simp [hq, hr]

theorem reap_cons_scan_encrypted (cfg : Config) (now : Rat) (ks : List TaskKey)
    (st : AState) (e : TaskEntry) (hlk : lookupT st.task_list .scan = some e)
    (hq : e.worker.query_fails = false) (hr : e.worker.running = false)
    (he : e.worker.exit_state = "Encrypted") :
    reap_tasks cfg now (.scan :: ks) st = (st, some .typeError) := by
  rw [reap_tasks, hlk]
  simp [hq, hr, he]

theorem reap_cons_encrypted_scanner (cfg : Config) (now : Rat) (n : PyNum)
    (ks : List TaskKey) (st : AState) (e : TaskEntry)
    (hlk : lookupT st.task_list (.freq n) = some e)
    (hq : e.worker.query_fails = false) (hr : e.worker.running = false)
    (he : e.worker.exit_state = "Encrypted")
    (hsc : (lookupT st.task_list .scan).isSome = true) :
    reap_tasks cfg now (.freq n :: ks) st =
      ({ st with block_list := insertB st.block_list n now }, some .nameError) := by
  rw [reap_tasks, hlk]
  simp [hq, hr, he, hsc]

theorem reap_cons_encrypted_noscanner (cfg : Config) (now : Rat) (n : PyNum)
    (ks : List TaskKey) (st : AState) (e : TaskEntry)
    (hlk : lookupT st.task_list (.freq n) = some e)
    (hq : e.worker.query_fails = false) (hr : e.worker.running = false)
    (he : e.worker.exit_state = "Encrypted")
    (hsc : lookupT st.task_list .scan = none) :
    reap_tasks cfg now (.freq n :: ks) st =
      finish_reap { st with block_list := insertB st.block_list n now } (.freq n) e := by
  rw [reap_tasks, hlk]
  simp [hq, hr, he, hsc]

theorem reap_cons_stopped_plain (cfg : Config) (now : Rat) (k : TaskKey) (ks : List TaskKey)
    (st : AState) (e : TaskEntry) (hlk : lookupT st.task_list k = some e)
    (hq : e.worker.query_fails = false) (hr : e.worker.running = false)
    (he : ¬e.worker.exit_state = "Encrypted") :
    reap_tasks cfg now (k :: ks) st = finish_reap st k e := by
  rw [reap_tasks, hlk]
  simp [hq, hr, he]

theorem expire_cons_miss (cfg : Config) (now : Rat) (f : PyNum) (fs : List PyNum)
    (st : AState) (hlk : lookupB st.block_list f = none) :
    expire_blocks cfg now (f :: fs) st = expire_blocks cfg now fs st := by
  rw [expire_blocks, hlk]

theorem expire_cons_fresh (cfg : Config) (now : Rat) (f : PyNum) (fs : List PyNum)
    (st : AState) (t : Rat) (hlk : lookupB st.block_list f = some t)
    (hfr : ¬t < now - block_ttl cfg) :
    expire_blocks cfg now (f :: fs) st = expire_blocks cfg now fs st := by
  rw [expire_blocks, hlk]
  simp [hfr]

theorem expire_cons_pop (cfg : Config) (now : Rat) (f : PyNum) (fs : List PyNum)
    (st : AState) (t : Rat) (hlk : lookupB st.block_list f = some t)
    (hexp : t < now - block_ttl cfg) :
    expire_blocks cfg now (f :: fs) st =
      ({ st with block_list := eraseB st.block_list f }, some .runtimeError) := by
  rw [expire_blocks, hlk]
  simp [hexp]

/-- As long as the reap loop has not raised `RuntimeError`, it has
popped no task entry and released no SDR, and the block list has only
grown. -/
theorem reap_tasks_no_shrink (cfg : Config) (now : Rat) (ks : List TaskKey) (st : AState)
    (h : (reap_tasks cfg now ks st).2 ≠ some .runtimeError) :
    (reap_tasks cfg now ks st).1.task_list = st.task_list ∧
    (reap_tasks cfg now ks st).1.sdr_list = st.sdr_list ∧
    st.block_list.length ≤ (reap_tasks cfg now ks st).1.block_list.length := by
  induction ks with
  | nil => simp [reap_tasks]
  | cons k ks ih =>
    cases hlk : lookupT st.task_list k with
    | none =>
      rw [reap_cons_miss cfg now k ks st hlk] at h ⊢
      exact ih h
    | some e =>
      by_cases hq : e.worker.query_fails = true
      · rw [reap_cons_qfail cfg now k ks st e hlk hq] at h ⊢
        exact ih h
      · rw [Bool.not_eq_true] at hq
        by_cases hr : e.worker.running = true
        · rw [reap_cons_running cfg now k ks st e hlk hq hr] at h ⊢
          exact ih h
        · rw [Bool.not_eq_true] at hr
          by_cases he : e.worker.exit_state = "Encrypted"
          · cases k with
            | scan =>
              rw [reap_cons_scan_encrypted cfg now ks st e hlk hq hr he]
              exact ⟨rfl, rfl, le_refl _⟩
            | freq n =>
              cases hsc : lookupT st.task_list .scan with
              | some e' =>
                rw [reap_cons_encrypted_scanner cfg now n ks st e hlk hq hr he
                  (by rw [hsc]; rfl)]
                exact ⟨rfl, rfl, ainsert_length_le _ _ _ _⟩
              | none =>
                rw [reap_cons_encrypted_noscanner cfg now n ks st e hlk hq hr he hsc] at h
                exact absurd rfl h
          · rw [reap_cons_stopped_plain cfg now k ks st e hlk hq hr he] at h
            exact absurd rfl h

/-- As long as the expiry loop has not raised `RuntimeError`, it has
changed nothing. -/
theorem expire_blocks_no_pop (cfg : Config) (now : Rat) (fs : List PyNum) (st : AState)
    (h : (expire_blocks cfg now fs st).2 ≠ some .runtimeError) :
    (expire_blocks cfg now fs st).1 = st := by
  induction fs with
  | nil => simp [expire_blocks]
  | cons f fs ih =>
    cases hlk : lookupB st.block_list f with
    | none =>
      rw [expire_cons_miss cfg now f fs st hlk] at h ⊢
      exact ih h
    | some t =>
      by_cases hexp : t < now - block_ttl cfg
      · rw [expire_cons_pop cfg now f fs st t hlk hexp] at h
        exact absurd rfl h
      · rw [expire_cons_fresh cfg now f fs st t hlk hexp] at h ⊢
        exact ih h

/-- `start_scanner` never shrinks the registry and leaves the block
list alone. -/
theorem start_scanner_growth (st : AState) :
    st.task_list.length ≤ (start_scanner st).task_list.length ∧
    (start_scanner st).block_list = st.block_list := by
  unfold start_scanner
  split
  · exact ⟨le_refl _, rfl⟩
  · simp only []
    split
    · exact ⟨le_refl _, rfl⟩
    · exact ⟨ainsert_length_le _ _ _ _, rfl⟩

/-- Helper: a pass of `clean_task_list` that does not propagate
`RuntimeError` removes nothing from the registry or the block list. -/
theorem clean_no_runtime_no_shrink (cfg : Config) (st : AState) (now : Rat)
    (h : (clean_task_list cfg st now).2 ≠ some .runtimeError) :
    st.task_list.length ≤ (clean_task_list cfg st now).1.task_list.length ∧
    st.block_list.length ≤ (clean_task_list cfg st now).1.block_list.length := by
  unfold clean_task_list at h ⊢
  cases h1 : (reap_tasks cfg now (st.task_list.map Prod.fst) st).2 with
  | some e =>
    simp only [h1] at h ⊢
    obtain ⟨ht, -, hb⟩ := reap_tasks_no_shrink cfg now (st.task_list.map Prod.fst) st
      (by rw [h1]; intro hc; exact h (Option.some.inj hc ▸ rfl))
    rw [ht] at *
    exact ⟨by rw [ht], hb⟩
  | none =>
    obtain ⟨ht1, -, hb1⟩ := reap_tasks_no_shrink cfg now (st.task_list.map Prod.fst) st
      (by rw [h1]; exact fun hc => Option.noConfusion hc)
    simp only [h1] at h ⊢
    cases h2 : (expire_blocks cfg now
        ((reap_tasks cfg now (st.task_list.map Prod.fst) st).1.block_list.map Prod.fst)
        (reap_tasks cfg now (st.task_list.map Prod.fst) st).1).2 with
    | some e =>
      simp only [h2] at h ⊢
      have h2' := expire_blocks_no_pop cfg now
        ((reap_tasks cfg now (st.task_list.map Prod.fst) st).1.block_list.map Prod.fst)
        (reap_tasks cfg now (st.task_list.map Prod.fst) st).1
        (by rw [h2]; intro hc; exact h (Option.some.inj hc ▸ rfl))
      rw [h2', ht1]
      exact ⟨le_refl _, hb1⟩
    | none =>
      have h2' := expire_blocks_no_pop cfg now
        ((reap_tasks cfg now (st.task_list.map Prod.fst) st).1.block_list.map Prod.fst)
        (reap_tasks cfg now (st.task_list.map Prod.fst) st).1
        (by rw [h2]; exact fun hc => Option.noConfusion hc)
      simp only [h2] at h ⊢
      split
      · obtain ⟨hg1, hg2⟩ := start_scanner_growth
          (expire_blocks cfg now
            ((reap_tasks cfg now (st.task_list.map Prod.fst) st).1.block_list.map Prod.fst)
            (reap_tasks cfg now (st.task_list.map Prod.fst) st).1).1
        constructor
        · calc st.task_list.length
              = (reap_tasks cfg now (st.task_list.map Prod.fst) st).1.task_list.length := by
                rw [ht1]
            _ = (expire_blocks cfg now
                  ((reap_tasks cfg now (st.task_list.map Prod.fst) st).1.block_list.map
                    Prod.fst)
                  (reap_tasks cfg now (st.task_list.map Prod.fst) st).1).1.task_list.length := by
                rw [h2']
            _ ≤ _ := hg1
        · calc st.block_list.length
              ≤ (reap_tasks cfg now (st.task_list.map Prod.fst) st).1.block_list.length := hb1
            _ = (expire_blocks cfg now
                  ((reap_tasks cfg now (st.task_list.map Prod.fst) st).1.block_list.map
                    Prod.fst)
                  (reap_tasks cfg now (st.task_list.map Prod.fst) st).1).1.block_list.length := by
                rw [h2']
            _ = _ := by rw [hg2]
      · rw [h2', ht1]
        exact ⟨le_refl _, hb1⟩

/-- C10: `clean_task_list` pops registry and block-list entries while
iterating over the very dicts it mutates, so — under Python 3
dictionary-iteration semantics — every invocation that removes at
least one task entry or at least one block entry propagates a
`RuntimeError` instead of completing the pass (and therefore never
reaches the scanner-restart step, which runs only when no exception
was raised). -/
theorem clean_mutation_raises_runtime_error (cfg : Config) (st : AState) (now : Rat)
    (h : (clean_task_list cfg st now).1.task_list.length < st.task_list.length ∨
      (clean_task_list cfg st now).1.block_list.length < st.block_list.length) :
    (clean_task_list cfg st now).2 = some .runtimeError := by
  by_contra hne
  obtain ⟨h1, h2⟩ := clean_no_runtime_no_shrink cfg st now hne
  rcases h with h | h
  · omega
  · omega

/-- Witness for C10: a single stopped decoder (normal exit) is reaped —
its entry removed and its SDR released — and the pass then raises
`RuntimeError` without restarting the scanner, even though an SDR is
free. -/
theorem clean_mutation_raises_runtime_error_witness :
    (clean_task_list ⟨15000, 10, ["RS41"], []⟩
        ⟨[(0, ⟨true, some (.freq ⟨.float, 400000000⟩)⟩)],
         [(.freq ⟨.float, 400000000⟩, ⟨0, ⟨"RS41", false, "Normal", false⟩⟩)], [], []⟩
        100).1.task_list.length < 1 ∧
    (clean_task_list ⟨15000, 10, ["RS41"], []⟩
        ⟨[(0, ⟨true, some (.freq ⟨.float, 400000000⟩)⟩)],
         [(.freq ⟨.float, 400000000⟩, ⟨0, ⟨"RS41", false, "Normal", false⟩⟩)], [], []⟩
        100).2 = some .runtimeError :=
  ⟨by decide,
   clean_mutation_raises_runtime_error ⟨15000, 10, ["RS41"], []⟩
     ⟨[(0, ⟨true, some (.freq ⟨.float, 400000000⟩)⟩)],
      [(.freq ⟨.float, 400000000⟩, ⟨0, ⟨"RS41", false, "Normal", false⟩⟩)], [], []⟩
     100 (Or.inl (by decide))⟩

/-! ## Theorem about `handle_scan_results` (claim C7) -/

/-- C7: with a pool of one SDR whose device is held by the registered
scanner, a detection `(f, ty)` whose de-marked type is supported, whose
frequency is not registered and not blocked, drains from the queue;
the scanner is stopped and its SDR released and immediately
reallocated to a new decoder for `f`: afterwards the registry holds no
scanner entry and exactly one decoder entry, keyed by `f` and bound to
the stolen device. -/
theorem scan_steal_reallocates_sdr (cfg : Config) (now : Rat) (d : Nat)
    (bt : Option TaskKey) (w : WorkerTask) (bl : List (PyNum × Rat)) (f : PyNum)
    (ty : String) (restQ : List (List (PyNum × String)))
    (hty : mem_str (strip_inv ty) cfg.valid_sonde_types = true)
    (hbl : lookupB bl f = none) :
    handle_scan_results cfg ⟨[(d, ⟨true, bt⟩)], [(.scan, ⟨d, w⟩)], bl, [(f, ty)] :: restQ⟩ now =
      ⟨[(d, ⟨true, some (.freq f)⟩)], [(.freq f, ⟨d, newDecoderWorker ty⟩)], bl, restQ⟩ := by
  have hmiss : lookupT [(.scan, ⟨d, w⟩)] (.freq f) = none := by
    simp [lookupT, alookup, keyEq]
  have hscan : lookupT [(.scan, (⟨d, w⟩ : TaskEntry))] .scan = some ⟨d, w⟩ := by
    simp [lookupT, alookup, keyEq]
  simp only [handle_scan_results, List.foldl_cons, List.foldl_nil, handle_sonde,
    hmiss, hscan, hty, hbl, allocate_sdr, stop_scanner, start_decoder, start_decoder_core,
    spacing_conflict, List.any_nil, insertT, ainsert, eraseT, aerase, keyEq,
    sdr_update, aupdate, natEq, lookupB, Bool.true_eq_false, Bool.false_eq_true, if_false,
    if_true, Option.isSome_some, Option.isSome_none, decide_True, decide_eq_true_eq]
  rw [show alookup numEq bl f = none from hbl]

/-- Witness for C7 at a concrete pool, scanner and detection. -/
theorem scan_steal_reallocates_sdr_witness :
    handle_scan_results ⟨15000, 10, ["RS41"], []⟩
        ⟨[(7, ⟨true, some .scan⟩)], [(.scan, ⟨7, newScannerWorker⟩)], [],
         [[(⟨.float, 401500000⟩, "-RS41")]]⟩ 100 =
      ⟨[(7, ⟨true, some (.freq ⟨.float, 401500000⟩)⟩)],
       [(.freq ⟨.float, 401500000⟩, ⟨7, newDecoderWorker "-RS41"⟩)], [], []⟩ :=
  scan_steal_reallocates_sdr ⟨15000, 10, ["RS41"], []⟩ 100 7 (some .scan)
    newScannerWorker [] ⟨.float, 401500000⟩ "-RS41" [] (by decide) (by decide)

/-! ## The device-binding invariant (claim C8) -/

theorem allocate_check_eq (d : List (Nat × SDRState)) : (allocate_sdr true d).2 = d := by
  induction d with
  | nil => rfl
  | cons p rest ih =>
    obtain ⟨i, s⟩ := p
    rw [allocate_sdr]
    by_cases hf : s.in_use = false
    · simp [hf]
    · simp [hf, ih]

theorem allocate_mem (co : Bool) (d : List (Nat × SDRState)) (i : Nat)
    (h : (allocate_sdr co d).1 = some i) : i ∈ d.map Prod.fst := by
  induction d with
  | nil => simp [allocate_sdr] at h
  | cons p rest ih =>
    obtain ⟨j, s⟩ := p
    rw [allocate_sdr] at h
    by_cases hf : s.in_use = false
    · rw [if_pos hf] at h
      cases co with
      | true =>
        obtain rfl : j = i := Option.some.inj h
        simp
      | false =>
        obtain rfl : j = i := Option.some.inj h
        simp
    · rw [if_neg hf] at h
      have := ih h
      simp [this]

theorem allocate_some_spec (d : List (Nat × SDRState)) (hnd : (d.map Prod.fst).Nodup)
    (i : Nat) (h : (allocate_sdr false d).1 = some i) :
    ∃ s, sdr_lookup d i = some s ∧ s.in_use = false ∧
      (allocate_sdr false d).2 = sdr_update (fun s => { s with in_use := true }) d i := by
  induction d with
  | nil => simp [allocate_sdr] at h
  | cons p rest ih =>
    obtain ⟨j, s⟩ := p
    rw [List.map_cons, List.nodup_cons] at hnd
    obtain ⟨hj, hnd'⟩ := hnd
    by_cases hf : s.in_use = false
    · rw [allocate_sdr, if_pos hf] at h
      obtain rfl : j = i := Option.some.inj h
      refine ⟨s, ?_, hf, ?_⟩
      · simp [sdr_lookup, alookup, natEq]
      · rw [allocate_sdr, if_pos hf]
        simp [sdr_update, aupdate, natEq]
    · rw [allocate_sdr, if_neg hf] at h
      obtain ⟨s', hlk, hfree, hupd⟩ := ih hnd' h
      have hij : j ≠ i := by
        intro hc
        exact hj (hc ▸ allocate_mem false rest i h)
      have hije : natEq j i = false := by
        simp [natEq, hij]
      refine ⟨s', ?_, hfree, ?_⟩
      · simp [sdr_lookup, alookup, hije]
        exact hlk
      · rw [allocate_sdr, if_neg hf]
        simp only [sdr_update, aupdate, hije, Bool.false_eq_true, if_false]
        rw [show aupdate natEq (fun s => { s with in_use := true }) rest i
            = sdr_update (fun s => { s with in_use := true }) rest i from rfl, ← hupd]

/-- The strengthened state invariant: the SDR keys are exactly
`0..n-1`, every registered task's device exists and is in use, and
distinct registered tasks hold distinct devices. -/
structure InvL (n : Nat) (sdrs : List (Nat × SDRState)) (tl : List (TaskKey × TaskEntry)) :
    Prop where
  keys : sdrs.map Prod.fst = List.range n
  bound : ∀ p ∈ tl, ∃ s, sdr_lookup sdrs p.2.device_idx = some s ∧ s.in_use = true
  inj : tl.Pairwise (fun a b => a.2.device_idx ≠ b.2.device_idx)

/-- The invariant as a predicate on scheduler states. -/
def Inv (n : Nat) (st : AState) : Prop := InvL n st.sdr_list st.task_list

/-- Registering a task on a freshly allocated (previously free)
device preserves the invariant, for any pool update that marks that
device in-use and leaves every other device alone. -/
theorem InvL_register (n : Nat) (sdrs : List (Nat × SDRState))
    (tl : List (TaskKey × TaskEntry)) (h : InvL n sdrs tl) (i : Nat) (s₀ : SDRState)
    (hi : sdr_lookup sdrs i = some s₀) (hfree : s₀.in_use = false)
    (sdrs' : List (Nat × SDRState)) (hk : sdrs'.map Prod.fst = sdrs.map Prod.fst)
    (hself : ∃ s', sdr_lookup sdrs' i = some s' ∧ s'.in_use = true)
    (hother : ∀ j, j ≠ i → sdr_lookup sdrs' j = sdr_lookup sdrs j)
    (k : TaskKey) (e : TaskEntry) (hdev : e.device_idx = i) :
    InvL n sdrs' (insertT tl k e) := by
  have hold : ∀ p ∈ tl, p.2.device_idx ≠ i := by
    intro p hp hpd
    obtain ⟨s, hs, hu⟩ := h.bound p hp
    rw [hpd, hi] at hs
    obtain rfl : s₀ = s := Option.some.inj hs
    rw [hu] at hfree
    exact Bool.noConfusion hfree
  have hboundold : ∀ p ∈ tl,
      ∃ s, sdr_lookup sdrs' p.2.device_idx = some s ∧ s.in_use = true := by
    intro p hp
    obtain ⟨s, hs, hu⟩ := h.bound p hp
    exact ⟨s, by rw [hother _ (hold p hp)]; exact hs, hu⟩
  cases hlk : lookupT tl k with
  | none =>
    obtain ⟨-, hins, -⟩ := alookup_none_spec keyEq tl k hlk
    rw [insertT, hins e]
    refine ⟨hk.trans h.keys, ?_, ?_⟩
    · intro p hp
      rcases List.mem_append.mp hp with hp | hp
      · exact hboundold p hp
      · obtain rfl : p = (k, e) := by simpa using hp
        rw [hdev]
        exact hself
    · rw [List.pairwise_append]
      refine ⟨h.inj, List.pairwise_singleton _ _, ?_⟩
      intro a ha b hb
      obtain rfl : b = (k, e) := by simpa using hb
      show a.2.device_idx ≠ e.device_idx
      rw [hdev]
      exact hold a ha
  | some v =>
    obtain ⟨l₁, k', l₂, hd, -, -, hins, -⟩ := alookup_found_spec keyEq tl k v hlk
    rw [insertT, hins e]
    have hsub : ∀ p : TaskKey × TaskEntry, p ∈ l₁ ∨ p ∈ l₂ → p ∈ tl := by
      intro p hp
      rw [hd]
      rcases hp with hp | hp
      · exact List.mem_append.mpr (Or.inl hp)
      · exact List.mem_append.mpr (Or.inr (List.mem_cons_of_mem _ hp))
    have horig := h.inj
    rw [hd, List.pairwise_append, List.pairwise_cons] at horig
    obtain ⟨h1, ⟨h2a, h2b⟩, h12⟩ := horig
    refine ⟨hk.trans h.keys, ?_, ?_⟩
    · intro p hp
      rcases List.mem_append.mp hp with hp | hp
      · exact hboundold p (hsub p (Or.inl hp))
      · rcases List.mem_cons.mp hp with rfl | hp
        · show ∃ s, sdr_lookup sdrs' e.device_idx = some s ∧ s.in_use = true
          rw [hdev]
          exact hself
        · exact hboundold p (hsub p (Or.inr hp))
    · rw [List.pairwise_append, List.pairwise_cons]
      refine ⟨h1, ⟨?_, h2b⟩, ?_⟩
      · intro b hb
        show e.device_idx ≠ b.2.device_idx
        rw [hdev]
        exact fun hc => hold b (hsub b (Or.inr hb)) hc.symm
      · intro a ha b hb
        rcases List.mem_cons.mp hb with rfl | hb
        · show a.2.device_idx ≠ e.device_idx
          rw [hdev]
          exact hold a (hsub a (Or.inl ha))
        · exact h12 a ha b (List.mem_cons_of_mem _ hb)

/-- Deregistering a task and then releasing (or otherwise touching
only) its device preserves the invariant. -/
theorem InvL_deregister (n : Nat) (sdrs : List (Nat × SDRState))
    (tl : List (TaskKey × TaskEntry)) (h : InvL n sdrs tl) (k : TaskKey) (e : TaskEntry)
    (hlk : lookupT tl k = some e)
    (sdrs' : List (Nat × SDRState)) (hk : sdrs'.map Prod.fst = sdrs.map Prod.fst)
    (hother : ∀ j, j ≠ e.device_idx → sdr_lookup sdrs' j = sdr_lookup sdrs j) :
    InvL n sdrs' (eraseT tl k) := by
  obtain ⟨l₁, k', l₂, hd, -, -, -, hers⟩ := alookup_found_spec keyEq tl k e hlk
  rw [eraseT, hers]
  have horig := h.inj
  rw [hd, List.pairwise_append, List.pairwise_cons] at horig
  obtain ⟨h1, ⟨h2a, h2b⟩, h12⟩ := horig
  have hne : ∀ p : TaskKey × TaskEntry, p ∈ l₁ ∨ p ∈ l₂ → p.2.device_idx ≠ e.device_idx := by
    intro p hp
    rcases hp with hp | hp
    · exact h12 p hp (k', e) (List.mem_cons_self _ _)
    · exact fun hc => h2a p hp hc.symm
  have hsub : ∀ p : TaskKey × TaskEntry, p ∈ l₁ ∨ p ∈ l₂ → p ∈ tl := by
    intro p hp
    rw [hd]
    rcases hp with hp | hp
    · exact List.mem_append.mpr (Or.inl hp)
    · exact List.mem_append.mpr (Or.inr (List.mem_cons_of_mem _ hp))
  refine ⟨hk.trans h.keys, ?_, ?_⟩
  · intro p hp
    have hp' : p ∈ l₁ ∨ p ∈ l₂ := by
      rcases List.mem_append.mp hp with hp | hp
      · exact Or.inl hp
      · exact Or.inr hp
    obtain ⟨s, hs, hu⟩ := h.bound p (hsub p hp')
    exact ⟨s, by rw [hother _ (hne p hp')]; exact hs, hu⟩
  · rw [List.pairwise_append]
    exact ⟨h1, h2b, fun a ha b hb => h12 a ha b (List.mem_cons_of_mem _ hb)⟩

theorem InvL_keys_nodup (n : Nat) (sdrs : List (Nat × SDRState))
    (tl : List (TaskKey × TaskEntry)) (h : InvL n sdrs tl) :
    (sdrs.map Prod.fst).Nodup := by
  rw [h.keys]
  exact List.nodup_range n

theorem sdr_update_keys (f : SDRState → SDRState) (d : List (Nat × SDRState)) (i : Nat) :
    (sdr_update f d i).map Prod.fst = d.map Prod.fst :=
  aupdate_keys natEq f d i

theorem Inv_start_scanner (n : Nat) (st : AState) (h : Inv n st) :
    Inv n (start_scanner st) := by
  unfold start_scanner
  cases hsc : lookupT st.task_list .scan with
  | some e => simp only [hsc]; exact h
  | none =>
    simp only [hsc]
    cases ha : (allocate_sdr false st.sdr_list).1 with
    | none => simp only [ha]; exact h
    | some idx =>
      simp only [ha]
      obtain ⟨s₀, hi, hfree, hupd⟩ :=
        allocate_some_spec st.sdr_list (InvL_keys_nodup n _ _ h) idx ha
      rw [hupd]
      have main : InvL n
          (sdr_update (fun s => { s with task := some TaskKey.scan })
            (sdr_update (fun s => { s with in_use := true }) st.sdr_list idx) idx)
          (insertT st.task_list .scan { device_idx := idx, worker := newScannerWorker }) := by
        refine InvL_register n st.sdr_list st.task_list h idx s₀ hi hfree _ ?_ ?_ ?_
          .scan _ rfl
        · rw [sdr_update_keys, sdr_update_keys]
        · refine ⟨{ in_use := true, task := some TaskKey.scan }, ?_, rfl⟩
          rw [sdr_lookup_update_self, sdr_lookup_update_self, hi]
          rfl
        · intro j hj
          rw [sdr_lookup_update_other _ _ _ _ hj, sdr_lookup_update_other _ _ _ _ hj]
      exact main

theorem Inv_stop_scanner (n : Nat) (st : AState) (h : Inv n st) :
    Inv n (stop_scanner st) := by
  unfold stop_scanner
  cases hsc : lookupT st.task_list .scan with
  | none => simp only [hsc]; exact h
  | some e =>
    simp only [hsc]
    exact InvL_deregister n st.sdr_list st.task_list h .scan e hsc _
      (aupdate_keys _ _ _ _) (fun j hj => sdr_lookup_update_other _ _ _ _ hj)

theorem Inv_start_decoder_core (cfg : Config) (n : Nat) (st : AState) (freq : PyNum)
    (ty : String) (h : Inv n st) : Inv n (start_decoder_core cfg st freq ty) := by
  unfold start_decoder_core
  by_cases hsp : spacing_conflict cfg st.task_list freq.val ty = true
  · simp only [hsp, if_true]; exact h
  · rw [Bool.not_eq_true] at hsp
    simp only [hsp, Bool.false_eq_true, if_false]
    cases ha : (allocate_sdr false st.sdr_list).1 with
    | none => simp only [ha]; exact h
    | some idx =>
      simp only [ha]
      obtain ⟨s₀, hi, hfree, hupd⟩ :=
        allocate_some_spec st.sdr_list (InvL_keys_nodup n _ _ h) idx ha
      rw [hupd]
      have main : InvL n
          (sdr_update (fun s => { s with task := some (TaskKey.freq freq) })
            (sdr_update (fun s => { s with in_use := true })
              (sdr_update (fun s => { s with in_use := true }) st.sdr_list idx) idx) idx)
          (insertT st.task_list (.freq freq)
            { device_idx := idx, worker := newDecoderWorker ty }) := by
        refine InvL_register n st.sdr_list st.task_list h idx s₀ hi hfree _ ?_ ?_ ?_
          (.freq freq) _ rfl
        · rw [sdr_update_keys, sdr_update_keys, sdr_update_keys]
        · refine ⟨{ in_use := true, task := some (TaskKey.freq freq) }, ?_, rfl⟩
          rw [sdr_lookup_update_self, sdr_lookup_update_self, sdr_lookup_update_self, hi]
          rfl
        · intro j hj
          rw [sdr_lookup_update_other _ _ _ _ hj, sdr_lookup_update_other _ _ _ _ hj,
            sdr_lookup_update_other _ _ _ _ hj]
      exact main

theorem Inv_start_decoder (cfg : Config) (n : Nat) (st : AState) (now : Rat) (freq : PyNum)
    (ty : String) (h : Inv n st) : Inv n (start_decoder cfg st now freq ty) := by
  unfold start_decoder
  cases hb : lookupB st.block_list freq with
  | none =>
    simp only [hb]
    exact Inv_start_decoder_core cfg n st freq ty h
  | some t =>
    simp only [hb]
    by_cases hfr : t > now - block_ttl cfg
    · simp only [if_pos hfr]; exact h
    · simp only [if_neg hfr]
      exact Inv_start_decoder_core cfg n
        { st with block_list := eraseB st.block_list freq } freq ty h

theorem Inv_handle_sonde (cfg : Config) (n : Nat) (now : Rat) (st : AState)
    (sonde : PyNum × String) (h : Inv n st) : Inv n (handle_sonde cfg now st sonde) := by
  unfold handle_sonde
  cases hlk : lookupT st.task_list (.freq sonde.1) with
  | some e => simp only [hlk]; exact h
  | none =>
    simp only [hlk]
    by_cases hv : mem_str (strip_inv sonde.2) cfg.valid_sonde_types = false
    · simp only [if_pos hv]; exact h
    · simp only [if_neg hv]
      by_cases hfree : (allocate_sdr true st.sdr_list).1.isSome = true
      · simp only [if_pos hfree]
        exact Inv_start_decoder cfg n st now sonde.1 sonde.2 h
      · simp only [if_neg hfree]
        by_cases hsc : (lookupT st.task_list .scan).isSome = true
        · simp only [if_pos hsc]
          exact Inv_start_decoder cfg n (stop_scanner st) now sonde.1 sonde.2
            (Inv_stop_scanner n st h)
        · simp only [if_neg hsc]; exact h

theorem Inv_foldl_sondes (cfg : Config) (n : Nat) (now : Rat)
    (batch : List (PyNum × String)) :
    ∀ st : AState, Inv n st → Inv n (batch.foldl (handle_sonde cfg now) st) := by
  induction batch with
  | nil => intro st h; simpa using h
  | cons s rest ih =>
    intro st h
    rw [List.foldl_cons]
    exact ih _ (Inv_handle_sonde cfg n now st s h)

theorem Inv_handle_scan_results (cfg : Config) (n : Nat) (st : AState) (now : Rat)
    (h : Inv n st) : Inv n (handle_scan_results cfg st now) := by
  unfold handle_scan_results
  cases hq : st.scan_results with
  | nil => simp only [hq]; exact h
  | cons batch rest =>
    simp only [hq]
    exact Inv_foldl_sondes cfg n now batch { st with scan_results := rest } h

theorem Inv_finish_reap (n : Nat) (st : AState) (k : TaskKey) (e : TaskEntry)
    (h : Inv n st) (hlk : lookupT st.task_list k = some e) :
    Inv n (finish_reap st k e).1 :=
  InvL_deregister n st.sdr_list st.task_list h k e hlk _
    (aupdate_keys _ _ _ _) (fun _ hj => sdr_lookup_update_other _ _ _ _ hj)

theorem Inv_reap_tasks (cfg : Config) (now : Rat) (n : Nat) (ks : List TaskKey)
    (st : AState) (h : Inv n st) : Inv n (reap_tasks cfg now ks st).1 := by
  induction ks with
  | nil => simpa [reap_tasks] using h
  | cons k ks ih =>
    cases hlk : lookupT st.task_list k with
    | none => rw [reap_cons_miss cfg now k ks st hlk]; exact ih
    | some e =>
      by_cases hq : e.worker.query_fails = true
      · rw [reap_cons_qfail cfg now k ks st e hlk hq]; exact ih
      · rw [Bool.not_eq_true] at hq
        by_cases hr : e.worker.running = true
        · rw [reap_cons_running cfg now k ks st e hlk hq hr]; exact ih
        · rw [Bool.not_eq_true] at hr
          by_cases he : e.worker.exit_state = "Encrypted"
          · cases k with
            | scan => rw [reap_cons_scan_encrypted cfg now ks st e hlk hq hr he]; exact h
            | freq m =>
              cases hsc : lookupT st.task_list .scan with
              | some e' =>
                rw [reap_cons_encrypted_scanner cfg now m ks st e hlk hq hr he
                  (by rw [hsc]; rfl)]
                exact h
              | none =>
                rw [reap_cons_encrypted_noscanner cfg now m ks st e hlk hq hr he hsc]
                exact Inv_finish_reap n { st with block_list := insertB st.block_list m now }
                  (.freq m) e h hlk
          · rw [reap_cons_stopped_plain cfg now k ks st e hlk hq hr he]
            exact Inv_finish_reap n st k e h hlk

theorem Inv_expire_blocks (cfg : Config) (now : Rat) (n : Nat) (fs : List PyNum)
    (st : AState) (h : Inv n st) : Inv n (expire_blocks cfg now fs st).1 := by
  induction fs with
  | nil => simpa [expire_blocks] using h
  | cons f fs ih =>
    cases hlk : lookupB st.block_list f with
    | none => rw [expire_cons_miss cfg now f fs st hlk]; exact ih
    | some t =>
      by_cases hexp : t < now - block_ttl cfg
      · rw [expire_cons_pop cfg now f fs st t hlk hexp]; exact h
      · rw [expire_cons_fresh cfg now f fs st t hlk hexp]; exact ih

theorem Inv_clean_task_list (cfg : Config) (st : AState) (now : Rat) (n : Nat)
    (h : Inv n st) : Inv n (clean_task_list cfg st now).1 := by
  unfold clean_task_list
  have h1i := Inv_reap_tasks cfg now n (st.task_list.map Prod.fst) st h
  cases h1 : (reap_tasks cfg now (st.task_list.map Prod.fst) st).2 with
  | some e => simp only [h1]; exact h1i
  | none =>
    simp only [h1]
    have h2i := Inv_expire_blocks cfg now n
      ((reap_tasks cfg now (st.task_list.map Prod.fst) st).1.block_list.map Prod.fst)
      (reap_tasks cfg now (st.task_list.map Prod.fst) st).1 h1i
    cases h2 : (expire_blocks cfg now
        ((reap_tasks cfg now (st.task_list.map Prod.fst) st).1.block_list.map Prod.fst)
        (reap_tasks cfg now (st.task_list.map Prod.fst) st).1).2 with
    | some e => simp only [h2]; exact h2i
    | none =>
      simp only [h2]
      split
      · exact Inv_start_scanner n _ h2i
      · exact h2i

theorem Inv_env_apply (n : Nat) (st : AState) (w : TaskKey → TaskEntry → WorkerTask)
    (q : List (List (PyNum × String))) (h : Inv n st) : Inv n (env_apply w q st) := by
  refine ⟨h.keys, ?_, ?_⟩
  · intro p hp
    rw [show (env_apply w q st).task_list
        = st.task_list.map (fun p => (p.1, { p.2 with worker := w p.1 p.2 })) from rfl,
      List.mem_map] at hp
    obtain ⟨p₀, hp₀, rfl⟩ := hp
    obtain ⟨s, hs, hu⟩ := h.bound p₀ hp₀
    exact ⟨s, hs, hu⟩
  · rw [show (env_apply w q st).task_list
        = st.task_list.map (fun p => (p.1, { p.2 with worker := w p.1 p.2 })) from rfl,
      List.pairwise_map]
    exact h.inj

theorem Inv_init (n : Nat) : Inv n (init n) := by
  refine ⟨?_, ?_, ?_⟩
  · show ((List.range n).map (fun i => (i, ({ in_use := false, task := none } : SDRState)))).map
        Prod.fst = List.range n
    rw [List.map_map]
    rw [show (Prod.fst ∘ fun i : Nat => (i, ({ in_use := false, task := none } : SDRState)))
        = id from rfl, List.map_id]
  · intro p hp
    simp [init] at hp
  · simp [init]

theorem Inv_reachable (cfg : Config) (n : Nat) (st : AState)
    (h : Relation.ReflTransGen (Step cfg) (init n) st) : Inv n st := by
  induction h with
  | refl => exact Inv_init n
  | tail hr hstep ih =>
    cases hstep with
    | start_scanner => exact Inv_start_scanner n _ ih
    | stop_scanner => exact Inv_stop_scanner n _ ih
    | start_decoder now freq ty => exact Inv_start_decoder cfg n _ now freq ty ih
    | handle_scan_results now => exact Inv_handle_scan_results cfg n _ now ih
    | clean_task_list now => exact Inv_clean_task_list cfg _ now n ih
    | env w q => exact Inv_env_apply n _ w q ih

/-- Counting consequence of the invariant: distinct in-use devices
bound injectively give `#tasks ≤ #in-use ≤ n`. -/
theorem InvL_count (n : Nat) (sdrs : List (Nat × SDRState))
    (tl : List (TaskKey × TaskEntry)) (h : InvL n sdrs tl) :
    tl.length ≤ (sdrs.filter fun p => p.2.in_use).length ∧ sdrs.length = n := by
  have hlen : sdrs.length = n := by
    have := congrArg List.length h.keys
    simpa using this
  refine ⟨?_, hlen⟩
  have hDnd : (tl.map fun p => p.2.device_idx).Nodup :=
    List.pairwise_map.mpr h.inj
  have hsub : (tl.map fun p => p.2.device_idx) ⊆
      (sdrs.filter fun p => p.2.in_use).map Prod.fst := by
    intro d hd
    rw [List.mem_map] at hd
    obtain ⟨p, hp, rfl⟩ := hd
    obtain ⟨s, hs, hu⟩ := h.bound p hp
    obtain ⟨k', hk', hmem⟩ := alookup_mem natEq sdrs p.2.device_idx s hs
    rw [natEq_iff] at hk'
    subst hk'
    rw [List.mem_map]
    exact ⟨(p.2.device_idx, s), List.mem_filter.mpr ⟨hmem, by simp [hu]⟩, rfl⟩
  calc tl.length = (tl.map fun p => p.2.device_idx).length := (List.length_map _ _).symm
    _ ≤ ((sdrs.filter fun p => p.2.in_use).map Prod.fst).length :=
      (List.subperm_of_subset hDnd hsub).length_le
    _ = (sdrs.filter fun p => p.2.in_use).length := List.length_map _ _

/-- C8: in every state reachable from startup by the scheduler
operations (and arbitrary worker-thread activity), every registered
task's bound device exists in the pool with `in_use = true`;
consequently, with a pool of `n` devices, the number of registered
tasks never exceeds `n` and the number of in-use devices never
exceeds `n`. -/
theorem reachable_device_invariant (cfg : Config) (n : Nat) (st : AState)
    (h : Reachable cfg n st) :
    (∀ p ∈ st.task_list,
      ∃ s, sdr_lookup st.sdr_list p.2.device_idx = some s ∧ s.in_use = true) ∧
    st.task_list.length ≤ n ∧
    (st.sdr_list.filter fun p => p.2.in_use).length ≤ n := by
  have hi := Inv_reachable cfg n st h
  obtain ⟨hc, hlen⟩ := InvL_count n st.sdr_list st.task_list hi
  have hfle : (st.sdr_list.filter fun p => p.2.in_use).length ≤ n := by
    calc (st.sdr_list.filter fun p => p.2.in_use).length
        ≤ st.sdr_list.length := List.length_filter_le _ _
      _ = n := hlen
  exact ⟨hi.bound, le_trans hc hfle, hfle⟩

/-- Witness for C8: the state reached from a one-device pool by one
`start_scanner` step satisfies the invariant and both bounds. -/
theorem reachable_device_invariant_witness :
    (∀ p ∈ (start_scanner (init 1)).task_list,
      ∃ s, sdr_lookup (start_scanner (init 1)).sdr_list p.2.device_idx = some s ∧
        s.in_use = true) ∧
    (start_scanner (init 1)).task_list.length ≤ 1 ∧
    ((start_scanner (init 1)).sdr_list.filter fun p => p.2.in_use).length ≤ 1 :=
  reachable_device_invariant ⟨15000, 10, ["RS41"], []⟩ 1 (start_scanner (init 1))
    (Relation.ReflTransGen.single (Step.start_scanner (init 1)))

end AutoRx
